import Mathlib

/-!
# Verification of the `health` package (gohealthcheck)

Shallow embedding of `src/health/health.go`.  The registry (`Health`),
its entries (`healthIndicator`), the registry operations (`AddCheck`,
`RemoveCheck`, `StopCheckers`), one iteration of the `RunCheckers`
scheduling loop, the result-recording `runChecker`, the reference HTTP
probe's `Check`, and the status `HTTPHandler` are translated into pure
Lean functions.  External effects (the probe call, the wall clock,
JSON serialization, the HTTP transport) are passed in as explicit
arguments, which is the standard shallow-embedding treatment of calls
that leave the package.

The probe (`Checker` interface in Go) is a type parameter `C`: the
scheduler never inspects a probe, it only stores it and hands its
evaluation result (modelled as `Option String`: `none` = success,
`some e` = failure with description `e`) to `runChecker`.
-/

namespace GoHealth

/-- One registered check (`healthIndicator` in health.go, lines 44-52).
`lastChecked` is milliseconds since epoch, `0` when never run.
The probe reference is the abstract `checker : C`. -/
structure HealthIndicator (C : Type) where
  service : String
  healthy : Bool
  message : String
  observeOnly : Bool
  lastChecked : Nat
  checker : C
deriving DecidableEq, Repr

/-- Registry state (`Health` struct, lines 55-62).  The Go struct also
holds a mutex (concurrency is modelled by sequencing operations) and an
`httpClient` config handle used only by the probe factory, which plays
no role in the claims; both are omitted from the state. -/
structure Health (C : Type) where
  run : Bool
  healthy : Bool
  checks : List (HealthIndicator C)
deriving DecidableEq, Repr

/-- `MakeHealth` (lines 65-69): a new, empty health checker.  Go zero
values give `run = false`, `Healthy = false`, `Checks = nil`. -/
def MakeHealth (C : Type) : Health C :=
  { run := false, healthy := false, checks := [] }

/-- `removeChecker` (lines 76-79): `s[i] = s[len(s)-1]; return s[:len(s)-1]`.
On an empty slice Go would panic; the function is only ever called with a
valid index into a non-empty slice, and the `none` branch is unreachable
there. -/
def removeChecker (s : List (HealthIndicator C)) (i : Nat) :
    List (HealthIndicator C) :=
  match s.getLast? with
  | none => s
  | some last => (s.set i last).take (s.length - 1)

/-- `AddCheck` (lines 82-93).  The Go loop ranges over `h.Checks` with a
loop variable `c` that is a copy of each element; on a name match it
assigns `c.checker` and `c.ObserveOnly` on that copy and returns, so the
slice itself is left unchanged (the two stores are dead).  Hence: name
present -> registry unchanged; name absent -> append a fresh entry with
`healthy = true`, empty message, `lastChecked = 0`. -/
def AddCheck (h : Health C) (service : String) (observeOnly : Bool)
    (checker : C) : Health C :=
  if h.checks.any (fun c => c.service == service) then
    h
  else
    { h with checks :=
        h.checks ++ [⟨service, true, "", observeOnly, 0, checker⟩] }

/-- What the `AddCheck` duplicate branch was written to do (and what the
spec says): replace the matched entry's probe and observe-only flag in
place, keeping `healthy`, `message` and `lastChecked`.  Used to compare
the code's actual behaviour against the documented intent. -/
def AddCheckIntended (h : Health C) (service : String) (observeOnly : Bool)
    (checker : C) : Health C :=
  if h.checks.any (fun c => c.service == service) then
    { h with checks := h.checks.map (fun c =>
        if c.service == service then
          { c with checker := checker, observeOnly := observeOnly }
        else c) }
  else
    { h with checks :=
        h.checks ++ [⟨service, true, "", observeOnly, 0, checker⟩] }

/-- `RemoveCheck` (lines 96-105): scan for the first entry whose
`Service` equals `service`; if found, swap-remove it via
`removeChecker`; otherwise fall off the loop (no-op). -/
def RemoveCheck (h : Health C) (service : String) : Health C :=
  match h.checks.findIdx? (fun c => c.service == service) with
  | some idx => { h with checks := removeChecker h.checks idx }
  | none => h

/-- `runChecker` (lines 108-118), called while the registry is unlocked.
The external call `checker.checker.Check()` is passed in as
`err : Option String` (`none` = nil error), and `time.Now().UnixMilli()`
as `now`.  Success: `Healthy = true`, `Message = "OK"`.  Failure:
`Healthy = false`, `Message = fmt.Sprintf("%s ERROR %v", Service, err)`.
Both branches then record `LastChecked = now`. -/
def runChecker (checker : HealthIndicator C) (err : Option String)
    (now : Nat) : HealthIndicator C :=
  match err with
  | none =>
      { checker with healthy := true, message := "OK", lastChecked := now }
  | some e =>
      { checker with healthy := false,
                     message := checker.service ++ " ERROR " ++ e,
                     lastChecked := now }

/-- The aggregate recomputation at the end of each `RunCheckers`
iteration (lines 156-163): `h.Healthy = true`, then for every entry that
is not observe-only, `h.Healthy = h.Healthy && c.Healthy`. -/
def recomputeHealthy (checks : List (HealthIndicator C)) : Bool :=
  checks.foldl
    (fun acc c => if c.observeOnly then acc else acc && c.healthy) true

/-- `StopCheckers` (lines 169-173): clear the running flag under lock. -/
def StopCheckers (h : Health C) : Health C :=
  { h with run := false }

end GoHealth

namespace GoHealth

/-- The loop-local variables of `RunCheckers` together with the registry
they act on: `nextIndex` (rotation cursor), `firstPass`, and the `count`
variable carried from one iteration's refresh to the next iteration's
sleep computation. -/
structure LoopState (C : Type) where
  h : Health C
  nextIndex : Nat
  firstPass : Bool
  count : Nat
deriving DecidableEq, Repr

/-- Outcome of one pass through the `for` body of `RunCheckers`: either
the loop returned (line 143) or it continues with an updated state. -/
inductive IterResult (C : Type) where
  | exited (h : Health C)
  | continued (s : LoopState C)
deriving DecidableEq, Repr

/-- The state on entry to the `for` loop of `RunCheckers` (lines
121-128): cursor `0`, `firstPass = true`, `run` set, and
`count = len(h.Checks) + 1`. -/
def runCheckersInit (h : Health C) : LoopState C :=
  { h := { h with run := true },
    nextIndex := 0,
    firstPass := true,
    count := h.checks.length + 1 }

/-- One iteration of the `for` body of `RunCheckers` (lines 130-165).
Returns the sleep duration in nanoseconds computed for this iteration
(`time.Duration(frequency) * time.Second / time.Duration(count)`, or
`10 * time.Millisecond` while `firstPass` holds) together with the
outcome.  `probeResult` is the external evaluation of the probe at the
cursor (used only when a probe actually runs) and `now` the wall clock
read inside `runChecker`. -/
def runIter (s : LoopState C) (frequency : Nat) (probeResult : Option String)
    (now : Nat) : Nat × IterResult C :=
  let sleepDuration :=
    if s.firstPass then 10 * 1000000
    else frequency * 1000000000 / s.count
  let count := s.h.checks.length + 1
  if s.h.run = false then
    (sleepDuration, .exited s.h)
  else
    let nextIndex :=
      if s.h.checks.length ≤ s.nextIndex then 0 else s.nextIndex
    let firstPass :=
      if s.h.checks.length ≤ s.nextIndex then false else s.firstPass
    let checks :=
      match s.h.checks[nextIndex]? with
      | some c => s.h.checks.set nextIndex (runChecker c probeResult now)
      | none => s.h.checks
    (sleepDuration,
     .continued
       { h := { s.h with checks := checks,
                         healthy := recomputeHealthy checks },
         nextIndex := nextIndex + 1,
         firstPass := firstPass,
         count := count })

/-- `httpChecker.Check` (lines 213-228) of the reference HTTP probe.
`getResult` models `client.Get(hc.url)`: `.error e` is a transport
error, `.ok resp` a response carrying its status code and the outcome
of draining the body with `io.Copy` (`drainError = some e` when the
copy failed).  Returns the Go error: `none` = success. -/
structure HttpGetResponse where
  statusCode : Nat
  drainError : Option String
deriving DecidableEq, Repr

/-- The classification performed by `httpChecker.Check`. -/
def httpCheckerCheck (getResult : Except String HttpGetResponse) :
    Option String :=
  match getResult with
  | .error e => some e
  | .ok resp =>
      match resp.drainError with
      | some e => some e
      | none =>
          if 200 ≤ resp.statusCode ∧ resp.statusCode < 400 then none
          else some ("HTTP status code " ++ toString resp.statusCode
                       ++ " returned")

/-- The response produced by the closure of `HTTPHandler`
(lines 183-208): header, status code, body. -/
structure HttpResponse where
  contentType : String
  statusCode : Nat
  body : String
deriving DecidableEq, Repr

/-- `HTTPHandler` (lines 183-208).  `marshal` models `json.Marshal(h)`.
The handler sets `content-type: application/json` first; on a marshal
error it writes header 500 and returns with no body; otherwise it
writes 200 when `h.Healthy` and 418 otherwise, with the marshalled
bytes as body. -/
def HTTPHandler (h : Health C) (marshal : Except String String) :
    HttpResponse :=
  match marshal with
  | .error _ =>
      { contentType := "application/json", statusCode := 500, body := "" }
  | .ok data =>
      { contentType := "application/json",
        statusCode := if h.healthy then 200 else 418,
        body := data }

end GoHealth

namespace GoHealth

/-! ## Helper lemmas -/

/-- The aggregate fold equals an `all` over non-observe-only entries. -/
theorem foldl_aggregate_eq_all (l : List (HealthIndicator C)) (b : Bool) :
    l.foldl (fun acc c => if c.observeOnly then acc else acc && c.healthy) b
      = (b && l.all (fun c => c.observeOnly || c.healthy)) := by
  induction l generalizing b with
  | nil => simp
  | cons hd tl ih =>
      rw [List.foldl_cons, ih, List.all_cons]
      cases hd.observeOnly <;> cases hd.healthy <;> cases b <;> simp

/-- `recomputeHealthy` is the conjunction of `healthy` over the entries
that are not observe-only. -/
theorem recomputeHealthy_eq_all (l : List (HealthIndicator C)) :
    recomputeHealthy l = l.all (fun c => c.observeOnly || c.healthy) := by
  rw [recomputeHealthy, foldl_aggregate_eq_all, Bool.true_and]

/-- Shape of the state produced when an iteration of the scheduling loop
continues: the aggregate is the recomputation over the (updated) check
list, the carried `count` is the refreshed `len(h.Checks) + 1`, and the
running flag is untouched. -/
theorem runIter_continued_shape (s : LoopState C) (frequency : Nat)
    (probeResult : Option String) (now : Nat) (s' : LoopState C)
    (hcont : (runIter s frequency probeResult now).2 = .continued s') :
    s'.h.healthy = recomputeHealthy s'.h.checks ∧
    s'.count = s'.h.checks.length + 1 ∧
    s'.h.run = s.h.run := by
  unfold runIter at hcont
  by_cases hr : s.h.run = false
  · rw [if_pos hr] at hcont
    exact absurd hcont (by simp)
  · rw [if_neg hr] at hcont
    simp only at hcont
    cases hmatch : s.h.checks[if s.h.checks.length ≤ s.nextIndex then 0
        else s.nextIndex]? with
    | none =>
        rw [hmatch] at hcont
        cases hcont
        simp
    | some c =>
        rw [hmatch] at hcont
        cases hcont
        simp [List.length_set]

/-- Setting index `i` of a list to an element with the same value of the
predicate leaves `List.all` unchanged. -/
theorem all_set_of_eq_pred {α : Type} (l : List α) (i : Nat) (c d : α)
    (p : α → Bool) (hget : l[i]? = some c) (hp : p c = p d) :
    (l.set i d).all p = l.all p := by
  induction l generalizing i with
  | nil => simp at hget
  | cons hd tl ih =>
      cases i with
      | zero =>
          simp only [List.getElem?_cons_zero, Option.some.injEq] at hget
          subst hget
          simp [List.set, hp]
      | succ n =>
          simp only [List.getElem?_cons_succ] at hget
          simp [List.set, ih n hget]

end GoHealth

namespace GoHealth

/-! ## Claim theorems -/

/-- C1 (code bug evidence): with one registered entry named "a"
(`observeOnly = false`, probe `1`), calling `AddCheck "a" true 2` leaves
the registry completely unchanged — the probe stays `1` and the
observe-only flag stays `false` — because the Go loop assigns to the
range-variable copy.  The in-place update the spec (and the dead stores
in the code) intend would have produced the entry with probe `2` and
`observeOnly = true`. -/
theorem addCheck_duplicate_leaves_entry_unchanged :
    AddCheck (C := Nat) ⟨false, false, [⟨"a", true, "m", false, 5, 1⟩]⟩
        "a" true 2
      = ⟨false, false, [⟨"a", true, "m", false, 5, 1⟩]⟩ ∧
    AddCheckIntended (C := Nat) ⟨false, false, [⟨"a", true, "m", false, 5, 1⟩]⟩
        "a" true 2
      = ⟨false, false, [⟨"a", true, "m", true, 5, 2⟩]⟩ := by
  constructor <;> rfl

/-- C2: after every scheduler-loop iteration that continues, the
aggregate healthy flag equals the AND of the healthy flags of the
non-observe-only entries; with zero non-observe-only entries it is
true; and changing the healthy flag of an observe-only entry never
changes the recomputed aggregate. -/
theorem aggregate_healthy_after_iteration (C : Type) (s : LoopState C)
    (frequency : Nat) (probeResult : Option String) (now : Nat)
    (s' : LoopState C)
    (hcont : (runIter s frequency probeResult now).2 = .continued s') :
    s'.h.healthy = s'.h.checks.all (fun c => c.observeOnly || c.healthy) ∧
    ((∀ c ∈ s'.h.checks, c.observeOnly = true) → s'.h.healthy = true) ∧
    (∀ (l : List (HealthIndicator C)) (i : Nat) (c : HealthIndicator C)
       (b : Bool), l[i]? = some c → c.observeOnly = true →
       recomputeHealthy (l.set i { c with healthy := b })
         = recomputeHealthy l) := by
  have hshape := runIter_continued_shape s frequency probeResult now s' hcont
  refine ⟨?_, ?_, ?_⟩
  · rw [hshape.1, recomputeHealthy_eq_all]
  · intro hall
    rw [hshape.1, recomputeHealthy_eq_all]
    simp only [List.all_eq_true]
    intro c hc
    simp [hall c hc]
  · intro l i c b hget hobs
    rw [recomputeHealthy_eq_all, recomputeHealthy_eq_all]
    exact all_set_of_eq_pred l i c _ _ hget (by simp [hobs])

end GoHealth

namespace GoHealth

/-- C2 witness: one concrete loop iteration (one non-observe-only check,
probe succeeds at time 3) whose resulting aggregate matches the AND. -/
theorem aggregate_healthy_after_iteration_witness :
    (LoopState.mk (C := Nat)
        ⟨true, true, [⟨"a", true, "OK", false, 3, 7⟩]⟩ 1 true 2).h.healthy
      = (LoopState.mk (C := Nat)
          ⟨true, true, [⟨"a", true, "OK", false, 3, 7⟩]⟩ 1 true 2).h.checks.all
          (fun c => c.observeOnly || c.healthy) :=
  (aggregate_healthy_after_iteration Nat
      (runCheckersInit ⟨false, false, [⟨"a", true, "", false, 0, 7⟩]⟩)
      5 none 3
      (LoopState.mk ⟨true, true, [⟨"a", true, "OK", false, 3, 7⟩]⟩ 1 true 2)
      rfl).1

/-- C3: after `runChecker` on an entry, a `nil` probe error yields
`healthy = true` and message `"OK"`; an error `e` yields
`healthy = false` and a message combining the entry's name and `e`
(in particular containing both); in both cases `lastChecked` is set to
the current time, which is positive. -/
theorem runChecker_records_result (C : Type) (c : HealthIndicator C)
    (err : Option String) (now : Nat) (hnow : 0 < now) :
    (err = none → (runChecker c err now).healthy = true ∧
       (runChecker c err now).message = "OK") ∧
    (∀ e, err = some e → (runChecker c err now).healthy = false ∧
       (runChecker c err now).message = c.service ++ " ERROR " ++ e ∧
       (∃ x y, (runChecker c err now).message = x ++ c.service ++ y) ∧
       (∃ x y, (runChecker c err now).message = x ++ e ++ y)) ∧
    (runChecker c err now).lastChecked = now ∧
    0 < (runChecker c err now).lastChecked := by
  refine ⟨?_, ?_, ?_, ?_⟩
  · intro he; subst he; exact ⟨rfl, rfl⟩
  · intro e he; subst he
    refine ⟨rfl, rfl, ⟨"", " ERROR " ++ e, ?_⟩, ⟨c.service ++ " ERROR ", "", ?_⟩⟩
    · simp [runChecker, String.append_assoc]
    · simp [runChecker, String.append_assoc]
  · cases err <;> rfl
  · cases err <;> simpa [runChecker] using hnow

/-- C3 witness: a concrete failing probe on entry "db" at time 5. -/
theorem runChecker_records_result_witness :
    (runChecker (C := Nat) ⟨"db", true, "", false, 0, 9⟩ (some "boom") 5).healthy
        = false ∧
    (runChecker (C := Nat) ⟨"db", true, "", false, 0, 9⟩ (some "boom") 5).message
        = "db ERROR boom" := by
  have h := (runChecker_records_result Nat ⟨"db", true, "", false, 0, 9⟩
      (some "boom") 5 (by decide)).2.1 "boom" rfl
  exact ⟨h.1, by rw [h.2.1]; rfl⟩

/-- C5: the reference HTTP probe's evaluation: a transport error is
returned as the failure; an error draining the body is returned as the
failure; a status code in 200..399 is success; any other status code is
the failure "HTTP status code <code> returned". -/
theorem httpChecker_classification :
    (∀ e, httpCheckerCheck (.error e) = some e) ∧
    (∀ code e, httpCheckerCheck (.ok ⟨code, some e⟩) = some e) ∧
    (∀ code, 200 ≤ code → code < 400 →
       httpCheckerCheck (.ok ⟨code, none⟩) = none) ∧
    (∀ code, code < 200 ∨ 400 ≤ code →
       httpCheckerCheck (.ok ⟨code, none⟩)
         = some ("HTTP status code " ++ toString code ++ " returned")) := by
  refine ⟨fun e => rfl, fun code e => rfl, ?_, ?_⟩
  · intro code h1 h2
    simp [httpCheckerCheck, h1, h2]
  · intro code h
    have : ¬(200 ≤ code ∧ code < 400) := by omega
    simp [httpCheckerCheck, this]

/-- C5 witness: status 200 and 301 succeed, 404 fails with the code in
the message, a transport error is passed through. -/
theorem httpChecker_classification_witness :
    httpCheckerCheck (.ok ⟨200, none⟩) = none ∧
    httpCheckerCheck (.ok ⟨301, none⟩) = none ∧
    httpCheckerCheck (.ok ⟨404, none⟩) = some "HTTP status code 404 returned" ∧
    httpCheckerCheck (.error "connection refused") = some "connection refused" := by
  refine ⟨httpChecker_classification.2.2.1 200 (by decide) (by decide),
          httpChecker_classification.2.2.1 301 (by decide) (by decide),
          ?_,
          httpChecker_classification.1 "connection refused"⟩
  have h := httpChecker_classification.2.2.2 404 (Or.inr (by decide))
  simpa using h

/-- C6: the status handler answers 500 with an empty body when JSON
serialization fails, and otherwise 200 (aggregate healthy) or 418
(aggregate unhealthy) with `application/json` content type and the
serialized snapshot as body. -/
theorem httpHandler_response (C : Type) (h : Health C) :
    (∀ e, HTTPHandler h (.error e)
       = { contentType := "application/json", statusCode := 500, body := "" }) ∧
    (∀ data, HTTPHandler h (.ok data)
       = { contentType := "application/json",
           statusCode := if h.healthy then 200 else 418,
           body := data }) :=
  ⟨fun _ => rfl, fun _ => rfl⟩

/-- C10: a fresh registry has aggregate healthy `false`; `AddCheck` and
`RemoveCheck` never change the aggregate or the running flag; hence
before any loop iteration the handler of a fresh registry reports
unhealthy (418). -/
theorem fresh_registry_reports_unhealthy (C : Type) :
    (MakeHealth C).healthy = false ∧
    (MakeHealth C).run = false ∧
    (∀ (h : Health C) service observeOnly checker,
       (AddCheck h service observeOnly checker).healthy = h.healthy ∧
       (AddCheck h service observeOnly checker).run = h.run) ∧
    (∀ (h : Health C) service,
       (RemoveCheck h service).healthy = h.healthy ∧
       (RemoveCheck h service).run = h.run) ∧
    (∀ data, (HTTPHandler (MakeHealth C) (.ok data)).statusCode = 418) := by
  refine ⟨rfl, rfl, ?_, ?_, fun data => rfl⟩
  · intro h service observeOnly checker
    unfold AddCheck
    split <;> exact ⟨rfl, rfl⟩
  · intro h service
    unfold RemoveCheck
    cases h.checks.findIdx? (fun c => c.service == service) <;> exact ⟨rfl, rfl⟩

end GoHealth

namespace GoHealth

/-- True exactly when an iteration outcome is the loop returning. -/
def IterResult.isExited : IterResult C → Bool
  | .exited _ => true
  | .continued _ => false

/-- C4 counterexample: a registry with one check named "a", frequency 2
seconds, probe succeeding, clock reads 100, 200, 300.  The second
iteration — not the first — still sleeps the fixed 10ms
(claim predicts 2s = frequency/max(1,1)), and the third iteration
sleeps frequency/2 = 1s because the code divides by len(checks)+1,
not by max(1, len(checks)). -/
theorem sleep_duration_counterexample :
    runIter (C := Nat)
        (runCheckersInit ⟨false, false, [⟨"a", true, "", false, 0, 1⟩]⟩)
        2 none 100
      = (10000000, .continued
          ⟨⟨true, true, [⟨"a", true, "OK", false, 100, 1⟩]⟩, 1, true, 2⟩) ∧
    runIter (C := Nat)
        ⟨⟨true, true, [⟨"a", true, "OK", false, 100, 1⟩]⟩, 1, true, 2⟩
        2 none 200
      = (10000000, .continued
          ⟨⟨true, true, [⟨"a", true, "OK", false, 200, 1⟩]⟩, 1, false, 2⟩) ∧
    runIter (C := Nat)
        ⟨⟨true, true, [⟨"a", true, "OK", false, 200, 1⟩]⟩, 1, false, 2⟩
        2 none 300
      = (1000000000, .continued
          ⟨⟨true, true, [⟨"a", true, "OK", false, 300, 1⟩]⟩, 1, false, 2⟩) ∧
    (10000000 : Nat) ≠ 2 * 1000000000 / max 1 1 ∧
    (1000000000 : Nat) ≠ 2 * 1000000000 / max 1 1 := by
  refine ⟨rfl, rfl, rfl, by decide, by decide⟩

/-- C4 (amended): the sleep duration an iteration computes is
`frequency` seconds divided by the carried `count`, where `count` is
`len(h.Checks) + 1` — not `max(1, len(h.Checks))` — as set at
initialization and refreshed at each iteration; and the fixed 10ms
delay is used on every iteration while `firstPass` holds (it is
cleared only when the rotation cursor first wraps), not only on the
very first iteration. -/
theorem sleep_duration_formula (C : Type) (s : LoopState C)
    (frequency : Nat) (probeResult : Option String) (now : Nat) :
    (runIter s frequency probeResult now).1
      = (if s.firstPass then 10000000
         else frequency * 1000000000 / s.count) ∧
    (∀ h : Health C, (runCheckersInit h).count = h.checks.length + 1 ∧
       (runCheckersInit h).firstPass = true) ∧
    (∀ s' : LoopState C,
       (runIter s frequency probeResult now).2 = .continued s' →
       s'.count = s.h.checks.length + 1 ∧
       s'.firstPass
         = (if s.h.checks.length ≤ s.nextIndex then false
            else s.firstPass)) := by
  refine ⟨?_, fun h => ⟨rfl, rfl⟩, ?_⟩
  · unfold runIter
    by_cases hr : s.h.run = false
    · rw [if_pos hr]
    · rw [if_neg hr]
  · intro s' hcont
    unfold runIter at hcont
    by_cases hr : s.h.run = false
    · rw [if_pos hr] at hcont
      exact absurd hcont (by simp)
    · rw [if_neg hr] at hcont
      simp only at hcont
      cases hmatch : s.h.checks[if s.h.checks.length ≤ s.nextIndex then 0
          else s.nextIndex]? with
      | none => rw [hmatch] at hcont; cases hcont; exact ⟨rfl, rfl⟩
      | some c => rw [hmatch] at hcont; cases hcont; exact ⟨rfl, rfl⟩

/-- C4 amended-claim witness: the concrete second and third iterations
above instantiate the formula. -/
theorem sleep_duration_formula_witness :
    ((runIter (C := Nat)
        ⟨⟨true, true, [⟨"a", true, "OK", false, 200, 1⟩]⟩, 1, false, 2⟩
        2 none 300).1 = 2 * 1000000000 / 2) ∧
    (LoopState.mk (C := Nat)
        ⟨true, true, [⟨"a", true, "OK", false, 300, 1⟩]⟩ 1 false 2).count
      = 2 := by
  constructor
  · exact (sleep_duration_formula Nat
      ⟨⟨true, true, [⟨"a", true, "OK", false, 200, 1⟩]⟩, 1, false, 2⟩
      2 none 300).1
  · exact ((sleep_duration_formula Nat
      ⟨⟨true, true, [⟨"a", true, "OK", false, 200, 1⟩]⟩, 1, false, 2⟩
      2 none 300).2.2
      ⟨⟨true, true, [⟨"a", true, "OK", false, 300, 1⟩]⟩, 1, false, 2⟩
      rfl).1

/-- C9: an iteration of the scheduling loop returns exactly when the
running flag is false — in particular a probe failure (`probeResult`
arbitrary, including failures) never makes it return while the flag is
set — and after `StopCheckers` the very next iteration returns. -/
theorem loop_exits_only_on_stop (C : Type) (s : LoopState C)
    (frequency : Nat) (now : Nat) :
    (∀ probeResult,
       ((runIter s frequency probeResult now).2).isExited = !s.h.run) ∧
    (∀ probeResult,
       (runIter { s with h := StopCheckers s.h } frequency probeResult now).2
         = .exited (StopCheckers s.h)) := by
  constructor
  · intro pr
    unfold runIter
    by_cases hr : s.h.run = false
    · rw [if_pos hr, hr]; rfl
    · rw [if_neg hr]
      have : s.h.run = true := by
        cases hv : s.h.run
        · exact absurd hv hr
        · rfl
      rw [this]
      cases hmatch : s.h.checks[if s.h.checks.length ≤ s.nextIndex then 0
          else s.nextIndex]? <;> simp only [hmatch] <;> rfl
  · intro pr
    rfl

end GoHealth

namespace GoHealth

/-- Swap-remove at a valid index is, up to reordering, the removal of
the element at that index. -/
theorem removeChecker_perm_eraseIdx (s : List (HealthIndicator C)) (i : Nat)
    (hi : i < s.length) : (removeChecker s i).Perm (s.eraseIdx i) := by
  induction s generalizing i with
  | nil => simp at hi
  | cons a t ih =>
      cases i with
      | zero =>
          cases t with
          | nil => simp [removeChecker]
          | cons b u =>
              have htne : b :: u ≠ [] := List.cons_ne_nil b u
              have hL : (a :: b :: u).getLast? = some ((b :: u).getLast htne) := by
                rw [List.getLast?_cons_cons, List.getLast?_eq_getLast (b :: u) htne]
              simp only [removeChecker, hL, List.set_cons_zero,
                List.length_cons, Nat.add_sub_cancel, List.take_succ_cons,
                List.eraseIdx_cons_zero]
              have hexp : (b :: u).dropLast ++ [(b :: u).getLast htne] = b :: u :=
                List.dropLast_append_getLast htne
              have h1 : ((b :: u).getLast htne) :: List.take u.length (b :: u)
                  = [(b :: u).getLast htne] ++ (b :: u).dropLast := by
                rw [List.dropLast_eq_take]
                simp
              have h2 : List.Perm
                  ([(b :: u).getLast htne] ++ (b :: u).dropLast)
                  ((b :: u).dropLast ++ [(b :: u).getLast htne]) :=
                List.perm_append_comm
              rw [h1]
              have h3 : ((b :: u).dropLast ++ [(b :: u).getLast htne]).Perm
                  (b :: u) := by
                rw [hexp]
              exact h2.trans h3
      | succ n =>
          cases t with
          | nil =>
              simp at hi
          | cons b u =>
              have hn : n < (b :: u).length := by
                simpa [Nat.succ_lt_succ_iff] using hi
              have htne : b :: u ≠ [] := List.cons_ne_nil b u
              have hL : (a :: b :: u).getLast? = some ((b :: u).getLast htne) := by
                rw [List.getLast?_cons_cons, List.getLast?_eq_getLast (b :: u) htne]
              have hLt : (b :: u).getLast? = some ((b :: u).getLast htne) :=
                List.getLast?_eq_getLast (b :: u) htne
              have hstep : removeChecker (a :: b :: u) (n + 1)
                  = a :: removeChecker (b :: u) n := by
                simp [removeChecker, hL, hLt, List.take_succ_cons]
              rw [hstep, List.eraseIdx_cons_succ]
              exact List.Perm.cons a (ih n hn)

/-- Swap-remove at a valid index shortens the list by exactly one. -/
theorem removeChecker_length (s : List (HealthIndicator C)) (i : Nat)
    (hs : s ≠ []) : (removeChecker s i).length = s.length - 1 := by
  cases hL : s.getLast? with
  | none => exact absurd (List.getLast?_eq_none_iff.mp hL) hs
  | some last =>
      simp [removeChecker, hL, List.length_take, List.length_set]

/-- When some element satisfies the predicate, `findIdx?` returns the
first matching index, which is in range and matches. -/
theorem findIdx?_of_exists {α : Type} (l : List α) (p : α → Bool)
    (hex : ∃ x ∈ l, p x = true) :
    l.findIdx? p = some (l.findIdx p) ∧ l.findIdx p < l.length := by
  have hlt : l.findIdx p < l.length := List.findIdx_lt_length_of_exists hex
  cases hq : l.findIdx? p with
  | none =>
      rw [List.findIdx?_eq_none_iff] at hq
      obtain ⟨x, hx, hpx⟩ := hex
      rw [hq x hx] at hpx
      exact absurd hpx (by simp)
  | some j =>
      have : l.findIdx p = j := by
        rw [List.findIdx_eq_findIdx?, hq]
      rw [this]
      exact ⟨rfl, this ▸ hlt⟩

end GoHealth

namespace GoHealth

/-- C7: `RemoveCheck` with the name present removes exactly the first
entry carrying that name: the size decreases by exactly one and the
remaining entries are a reordering of the original list with that entry
erased (swap-with-last then truncate).  With the name absent it is a
no-op: no panic, no change. -/
theorem removeCheck_spec (C : Type) (h : Health C) (service : String) :
    ((∀ c ∈ h.checks, c.service ≠ service) → RemoveCheck h service = h) ∧
    ((∃ c ∈ h.checks, c.service = service) →
       (RemoveCheck h service).checks.length + 1 = h.checks.length ∧
       ∃ i, h.checks.findIdx? (fun c => c.service == service) = some i ∧
         (∃ c, h.checks[i]? = some c ∧ c.service = service) ∧
         ((RemoveCheck h service).checks).Perm (h.checks.eraseIdx i)) := by
  constructor
  · intro habs
    unfold RemoveCheck
    have hnone : h.checks.findIdx? (fun c => c.service == service) = none := by
      rw [List.findIdx?_eq_none_iff]
      intro x hx
      simpa using habs x hx
    rw [hnone]
  · intro hex
    have hex2 : ∃ x ∈ h.checks, (fun c => c.service == service) x = true := by
      obtain ⟨c, hc, hcs⟩ := hex
      exact ⟨c, hc, by simpa using hcs⟩
    obtain ⟨hfind, hlt⟩ := findIdx?_of_exists h.checks _ hex2
    have hne : h.checks ≠ [] := by
      intro hempty
      rw [hempty] at hlt
      simp at hlt
    have hrc : (RemoveCheck h service).checks
        = removeChecker h.checks
            (h.checks.findIdx (fun c => c.service == service)) := by
      unfold RemoveCheck
      rw [hfind]
    refine ⟨?_, h.checks.findIdx (fun c => c.service == service), hfind,
            ⟨h.checks.get ⟨_, hlt⟩, ?_, ?_⟩, ?_⟩
    · rw [hrc, removeChecker_length h.checks _ hne]
      omega
    · rw [List.getElem?_eq_getElem hlt]
      rfl
    · have hp := @List.findIdx_getElem _ (fun c => c.service == service)
        h.checks hlt
      simpa using hp
    · rw [hrc]
      exact removeChecker_perm_eraseIdx h.checks _ hlt

/-- C7 witness: removing an absent name "z" is a no-op, and removing
"a" from a two-entry registry leaves exactly one entry. -/
theorem removeCheck_spec_witness :
    RemoveCheck (C := Nat) ⟨false, false, [⟨"a", true, "", false, 0, 1⟩]⟩ "z"
      = ⟨false, false, [⟨"a", true, "", false, 0, 1⟩]⟩ ∧
    (RemoveCheck (C := Nat)
        ⟨false, false, [⟨"a", true, "", false, 0, 1⟩,
                        ⟨"b", true, "", false, 0, 2⟩]⟩ "a").checks.length + 1
      = 2 := by
  constructor
  · exact (removeCheck_spec Nat
      ⟨false, false, [⟨"a", true, "", false, 0, 1⟩]⟩ "z").1 (by decide)
  · exact ((removeCheck_spec Nat
      ⟨false, false, [⟨"a", true, "", false, 0, 1⟩,
                      ⟨"b", true, "", false, 0, 2⟩]⟩ "a").2
      ⟨⟨"a", true, "", false, 0, 1⟩, by decide, rfl⟩).1

/-- Executing a sequence of `AddCheck` calls in order, each argument
triple being (service name, observe-only flag, probe). -/
def addAll (h : Health C) (l : List (String × Bool × C)) : Health C :=
  l.foldl (fun acc x => AddCheck acc x.1 x.2.1 x.2.2) h

/-- Adding a batch of names, none of which collides with the registry
or with each other, appends exactly those names in order. -/
theorem addAll_services (l : List (String × Bool × C)) (h : Health C)
    (hnd : (h.checks.map (fun c => c.service)
              ++ l.map (fun x => x.1)).Nodup) :
    (addAll h l).checks.map (fun c => c.service)
      = h.checks.map (fun c => c.service) ++ l.map (fun x => x.1) := by
  induction l generalizing h with
  | nil => simp [addAll]
  | cons x xs ih =>
      simp only [List.map_cons] at hnd
      rw [List.append_cons] at hnd
      have hnd2 := hnd
      rw [List.nodup_append] at hnd2
      have hx : x.1 ∉ h.checks.map (fun c => c.service) := by
        intro hmem
        have hnd3 := (List.nodup_append.mp hnd2.1).2.2
        exact hnd3 hmem (List.mem_singleton_self x.1)
      have hany : h.checks.any (fun c => c.service == x.1) = false := by
        rw [List.any_eq_false]
        intro c hc
        simp only [beq_iff_eq]
        intro heq
        exact hx (heq ▸ List.mem_map_of_mem _ hc)
      have hstep : AddCheck h x.1 x.2.1 x.2.2
          = { h with checks :=
                h.checks ++ [⟨x.1, true, "", x.2.1, 0, x.2.2⟩] } := by
        unfold AddCheck
        rw [hany]
        rfl
      have haddall : addAll h (x :: xs)
          = addAll { h with checks :=
                h.checks ++ [⟨x.1, true, "", x.2.1, 0, x.2.2⟩] } xs := by
        unfold addAll
        rw [List.foldl_cons, hstep]
      rw [haddall, ih]
      · simp [List.map_append, List.append_assoc]
      · simpa using hnd

/-- C8: `AddCheck` with a fresh name appends a new entry with
`healthy = true`, empty message and `lastChecked = 0`; consequently a
sequence of `AddCheck` calls with pairwise distinct names, starting
from the empty registry, yields exactly one entry per call, with the
registered names remaining unique. -/
theorem addCheck_append_and_distinct (C : Type) :
    (∀ (h : Health C) service observeOnly checker,
       (∀ c ∈ h.checks, c.service ≠ service) →
       AddCheck h service observeOnly checker
         = { h with checks := h.checks
               ++ [⟨service, true, "", observeOnly, 0, checker⟩] }) ∧
    (∀ l : List (String × Bool × C), (l.map (fun x => x.1)).Nodup →
       (addAll (MakeHealth C) l).checks.length = l.length ∧
       ((addAll (MakeHealth C) l).checks.map (fun c => c.service)).Nodup) := by
  constructor
  · intro h service observeOnly checker habs
    have hany : h.checks.any (fun c => c.service == service) = false := by
      rw [List.any_eq_false]
      intro c hc
      simpa using habs c hc
    unfold AddCheck
    rw [hany]
    rfl
  · intro l hnd
    have hserv := addAll_services l (MakeHealth C)
      (by simpa [MakeHealth] using hnd)
    constructor
    · have hlen := congrArg List.length hserv
      simpa [MakeHealth] using hlen
    · rw [hserv]
      simpa [MakeHealth] using hnd

/-- C8 witness: adding "a" then "b" to a fresh registry yields two
entries, and a single fresh add appends the optimistic default entry. -/
theorem addCheck_append_and_distinct_witness :
    AddCheck (MakeHealth Nat) "a" false 1
      = ⟨false, false, [⟨"a", true, "", false, 0, 1⟩]⟩ ∧
    (addAll (MakeHealth Nat) [("a", false, 1), ("b", true, 2)]).checks.length
      = 2 := by
  constructor
  · exact (addCheck_append_and_distinct Nat).1 (MakeHealth Nat) "a" false 1
      (by decide)
  · exact ((addCheck_append_and_distinct Nat).2
      [("a", false, 1), ("b", true, 2)] (by decide)).1

end GoHealth
